import Mathlib

/-!
Shallow embedding of the Pong physics core (`src/pong/world.py`).

Coordinates and speeds are Python integers, modelled as `ℤ`.  Python's
floor division `//` always has the positive divisor 2 in this code, where
it coincides with Lean's Euclidean `/` on `ℤ`.  Hit factors are Python
floats produced by exact-in-double arithmetic on small values; they are
modelled as `ℚ`, with Python's `int(...)` truncation toward zero modelled
by `pytrunc`.  The sources of randomness (`random.choice([-1, 1])` in
`Ball.__init__` and `Ball.reset`) are passed in explicitly as integer
direction arguments; the constructor normalises any value the way
`Speed.__init__` does.
-/

namespace Pong

/-- `Speed` from world.py: a magnitude together with a direction sign. -/
structure Speed where
  value : ℤ
  direction : ℤ
  deriving Repr, DecidableEq

/-- `Speed.__init__`: store the magnitude and normalise the direction to
`1` if positive, else `-1`. -/
def mkSpeed (value : ℤ) (direction : ℤ) : Speed :=
  { value := value, direction := if 0 < direction then 1 else -1 }

/-- `Speed.velocity`: magnitude times direction. -/
def Speed.velocity (s : Speed) : ℤ := s.value * s.direction

/-- `Speed.reverse`: multiply the direction by `-1`. -/
def Speed.reverse (s : Speed) : Speed := { s with direction := s.direction * (-1) }

/-- `Speed.increase`: add to the magnitude, unconditionally. -/
def Speed.increase (s : Speed) (amount : ℤ) : Speed := { s with value := s.value + amount }

/-- `Speed.decrease`: subtract from the magnitude, floored at 0. -/
def Speed.decrease (s : Speed) (amount : ℤ) : Speed := { s with value := max 0 (s.value - amount) }

/-- `Speed.set_value`: set the magnitude, floored at 0. -/
def Speed.set_value (s : Speed) (v : ℤ) : Speed := { s with value := max 0 v }

/-- `Paddle` from world.py: position (top-left), dimensions and step speed. -/
structure Paddle where
  x : ℤ
  y : ℤ
  height : ℤ
  width : ℤ
  speed : ℤ
  deriving Repr, DecidableEq

/-- `Paddle.move_up`: shift y up by `speed`, clamped below at 0.
The `game_height` argument is unused, exactly as in the source. -/
def Paddle.move_up (p : Paddle) (_game_height : ℤ) : Paddle :=
  { p with y := max 0 (p.y - p.speed) }

/-- `Paddle.move_down`: shift y down by `speed`, clamped above at
`game_height - height`. -/
def Paddle.move_down (p : Paddle) (game_height : ℤ) : Paddle :=
  { p with y := min (game_height - p.height) (p.y + p.speed) }

/-- `Paddle.get_hit_factor`: normalise the hit position to `[-1, 1]`.
The Python body computes `(ball_y - y) / height * 2 - 1` in float and
clamps with `max(-1.0, min(1.0, .))`. -/
def Paddle.get_hit_factor (p : Paddle) (ball_y : ℤ) : ℚ :=
  max (-1 : ℚ) (min 1 (((ball_y : ℚ) - (p.y : ℚ)) / (p.height : ℚ) * 2 - 1))

/-- Python `int(...)` on a rational: truncation toward zero. -/
def pytrunc (q : ℚ) : ℤ := if 0 ≤ q then ⌊q⌋ else ⌈q⌉

/-- `Ball` from world.py: a square with independent horizontal and
vertical speeds and fixed speed parameters. -/
structure Ball where
  x : ℤ
  y : ℤ
  size : ℤ
  horizontal_speed : Speed
  vertical_speed : Speed
  base_speed : ℤ
  max_speed : ℤ
  speed_increment : ℤ
  deriving Repr, DecidableEq

/-- `Ball.__init__`: the two direction arguments stand for the two
`random.choice([-1, 1])` draws. -/
def mkBall (x y size initial_speed max_speed speed_increment h_dir v_dir : ℤ) : Ball :=
  { x := x, y := y, size := size,
    horizontal_speed := mkSpeed initial_speed h_dir,
    vertical_speed := mkSpeed 0 v_dir,
    base_speed := initial_speed,
    max_speed := max_speed,
    speed_increment := speed_increment }

/-- `Ball.update_position`: Euler step by the two velocities. -/
def Ball.update_position (b : Ball) : Ball :=
  { b with x := b.x + b.horizontal_speed.velocity,
           y := b.y + b.vertical_speed.velocity }

/-- `Ball.bounce_horizontal`: reverse the vertical speed only. -/
def Ball.bounce_horizontal (b : Ball) : Ball :=
  { b with vertical_speed := b.vertical_speed.reverse }

/-- `Ball.bounce_vertical`: reverse the horizontal direction, bump its
magnitude by `speed_increment` capped at `max_speed`, and recompute the
vertical speed from the hit factor, mirroring the Python statement by
statement (`int(...)` is `pytrunc`). -/
def Ball.bounce_vertical (b : Ball) (hit_factor : ℚ) : Ball :=
  let hs := b.horizontal_speed.reverse
  let new_h_speed : ℤ := min (hs.value + b.speed_increment) b.max_speed
  let hs := hs.set_value new_h_speed
  let desired_v_speed_magnitude : ℚ := |hit_factor| * (b.max_speed : ℚ)
  let vertical_direction : ℤ :=
    if 0 < hit_factor then 1
    else if hit_factor < 0 then -1
    else b.vertical_speed.direction
  let final_v_speed_value : ℤ :=
    min (pytrunc (max ((b.vertical_speed.value : ℚ)) desired_v_speed_magnitude)) b.max_speed
  let vs := b.vertical_speed.set_value final_v_speed_value
  let vs := if hit_factor ≠ 0 then { vs with direction := vertical_direction } else vs
  { b with horizontal_speed := hs, vertical_speed := vs }

/-- `Ball.reset`: reposition and restore base speeds; the two direction
arguments stand for the two fresh `random.choice([-1, 1])` draws. -/
def Ball.reset (b : Ball) (x y h_dir v_dir : ℤ) : Ball :=
  { b with x := x, y := y,
           horizontal_speed := mkSpeed b.base_speed h_dir,
           vertical_speed := mkSpeed 0 v_dir }

/-- `World` from world.py: arena dimensions, the two paddles and the ball. -/
structure World where
  width : ℤ
  height : ℤ
  left_paddle : Paddle
  right_paddle : Paddle
  ball : Ball
  deriving Repr, DecidableEq

/-- `World.__init__` with the constants hard-coded in the source
(paddle 100×15 at speed 10, ball size 15, speeds 4/12/1, paddles 20 px
from the walls, everything centered). -/
def mkWorld (width height h_dir v_dir : ℤ) : World :=
  { width := width, height := height,
    left_paddle := { x := 20, y := (height - 100) / 2, height := 100, width := 15, speed := 10 },
    right_paddle := { x := width - 20 - 15, y := (height - 100) / 2,
                      height := 100, width := 15, speed := 10 },
    ball := mkBall (width / 2) (height / 2) 15 4 12 1 h_dir v_dir }

/-- `World.collision_left`, verbatim from the source. -/
def collision_left (paddle : Paddle) (ball : Ball) : Bool :=
  decide (ball.x ≤ paddle.x + paddle.width ∧
    ball.x + ball.horizontal_speed.velocity ≤ paddle.x + paddle.width ∧
    paddle.y ≤ ball.y + ball.size ∧
    ball.y ≤ paddle.y + paddle.height)

/-- `World.collision_right`, verbatim from the source. -/
def collision_right (paddle : Paddle) (ball : Ball) : Bool :=
  decide (paddle.x ≤ ball.x + ball.size ∧
    paddle.x ≤ ball.x + ball.size + ball.horizontal_speed.velocity ∧
    paddle.y ≤ ball.y + ball.size ∧
    ball.y ≤ paddle.y + paddle.height)

/-- `World.reset_ball`: reset the ball to the canvas center. -/
def World.reset_ball (w : World) (h_dir v_dir : ℤ) : World :=
  { w with ball := w.ball.reset (w.width / 2) (w.height / 2) h_dir v_dir }

/-- `World.restart_game`: recenter both paddles vertically and reset the ball. -/
def World.restart_game (w : World) (h_dir v_dir : ℤ) : World :=
  ({ w with
    left_paddle := { w.left_paddle with y := (w.height - w.left_paddle.height) / 2 },
    right_paddle := { w.right_paddle with
      y := (w.height - w.right_paddle.height) / 2 } }).reset_ball h_dir v_dir

/-- First step of `World.update_world`: advance the ball. -/
def World.ball_advance (w : World) : World :=
  { w with ball := w.ball.update_position }

/-- Second step of `World.update_world`: top/bottom wall bounce and clamp. -/
def World.wall_step (w : World) : World :=
  if w.ball.y ≤ 0 ∨ w.height - w.ball.size ≤ w.ball.y then
    let b := w.ball.bounce_horizontal
    let b :=
      if b.y < 0 then { b with y := 0 }
      else if w.height - b.size < b.y then { b with y := w.height - b.size }
      else b
    { w with ball := b }
  else w

/-- Third step of `World.update_world`: paddle collision in the direction
of travel (right paddle checked first, then the left in the `elif`). -/
def World.paddle_step (w : World) : World :=
  if 0 < w.ball.horizontal_speed.direction ∧ collision_right w.right_paddle w.ball = true then
    let hit_factor := w.right_paddle.get_hit_factor (w.ball.y + w.ball.size / 2)
    let b := w.ball.bounce_vertical hit_factor
    { w with ball := { b with x := w.right_paddle.x - b.size } }
  else if w.ball.horizontal_speed.direction < 0 ∧ collision_left w.left_paddle w.ball = true then
    let hit_factor := w.left_paddle.get_hit_factor (w.ball.y + w.ball.size / 2)
    let b := w.ball.bounce_vertical hit_factor
    { w with ball := { b with x := w.left_paddle.x + w.left_paddle.width } }
  else w

/-- Last step of `World.update_world`: scoring check and restart.  Returns
the outcome together with the new world. -/
def World.score_step (w : World) (h_dir v_dir : ℤ) : ℤ × World :=
  if w.ball.x < 0 then (2, w.restart_game h_dir v_dir)
  else if w.width < w.ball.x then (1, w.restart_game h_dir v_dir)
  else (0, w)

/-- The world state after steps 1–3 of a tick (position advance, wall
bounce, paddle collision handling), right before the scoring check. -/
def World.mid_tick (w : World) : World :=
  ((w.ball_advance).wall_step).paddle_step

/-- `World.update_world`: one tick, in the source's strict order.  The two
direction arguments stand for the `random.choice` draws that `Ball.reset`
makes if a restart happens this tick. -/
def World.update_world (w : World) (h_dir v_dir : ℤ) : ℤ × World :=
  (w.mid_tick).score_step h_dir v_dir

/-- `World.move_left_paddle_up`. -/
def World.move_left_paddle_up (w : World) : World :=
  { w with left_paddle := w.left_paddle.move_up w.height }

/-- `World.move_left_paddle_down`. -/
def World.move_left_paddle_down (w : World) : World :=
  { w with left_paddle := w.left_paddle.move_down w.height }

/-- `World.move_right_paddle_up`. -/
def World.move_right_paddle_up (w : World) : World :=
  { w with right_paddle := w.right_paddle.move_up w.height }

/-- `World.move_right_paddle_down`. -/
def World.move_right_paddle_down (w : World) : World :=
  { w with right_paddle := w.right_paddle.move_down w.height }

/-- The worlds reachable from default construction (`World()` with the
default 800×600 arena) by the public operations; direction arguments range
over all integers, covering every outcome of `random.choice([-1, 1])`. -/
inductive Reachable : World → Prop
  | init (h_dir v_dir : ℤ) : Reachable (mkWorld 800 600 h_dir v_dir)
  | update (w : World) (h_dir v_dir : ℤ) :
      Reachable w → Reachable (w.update_world h_dir v_dir).2
  | lup (w : World) : Reachable w → Reachable w.move_left_paddle_up
  | ldown (w : World) : Reachable w → Reachable w.move_left_paddle_down
  | rup (w : World) : Reachable w → Reachable w.move_right_paddle_up
  | rdown (w : World) : Reachable w → Reachable w.move_right_paddle_down
  | restart (w : World) (h_dir v_dir : ℤ) :
      Reachable w → Reachable (w.restart_game h_dir v_dir)

/-! ### Basic lemmas about the embedded operations -/

lemma pytrunc_intCast (n : ℤ) : pytrunc (n : ℚ) = n := by
  unfold pytrunc
  split
  · exact Int.floor_intCast n
  · exact Int.ceil_intCast n

lemma le_pytrunc_of_le {n : ℤ} {q : ℚ} (hq : 0 ≤ q) (h : (n : ℚ) ≤ q) : n ≤ pytrunc q := by
  unfold pytrunc
  rw [if_pos hq]
  exact Int.le_floor.mpr h

lemma pytrunc_nonneg {q : ℚ} (hq : 0 ≤ q) : 0 ≤ pytrunc q :=
  le_pytrunc_of_le hq (by exact_mod_cast hq)

@[simp] lemma ball_advance_width (w : World) : (w.ball_advance).width = w.width := rfl
@[simp] lemma ball_advance_height (w : World) : (w.ball_advance).height = w.height := rfl
@[simp] lemma ball_advance_left_paddle (w : World) :
    (w.ball_advance).left_paddle = w.left_paddle := rfl
@[simp] lemma ball_advance_right_paddle (w : World) :
    (w.ball_advance).right_paddle = w.right_paddle := rfl
@[simp] lemma ball_advance_ball_size (w : World) : (w.ball_advance).ball.size = w.ball.size := rfl
@[simp] lemma ball_advance_ball_x (w : World) :
    (w.ball_advance).ball.x = w.ball.x + w.ball.horizontal_speed.velocity := rfl
@[simp] lemma ball_advance_ball_y (w : World) :
    (w.ball_advance).ball.y = w.ball.y + w.ball.vertical_speed.velocity := rfl
@[simp] lemma ball_advance_ball_hspeed (w : World) :
    (w.ball_advance).ball.horizontal_speed = w.ball.horizontal_speed := rfl
@[simp] lemma ball_advance_ball_vspeed (w : World) :
    (w.ball_advance).ball.vertical_speed = w.ball.vertical_speed := rfl

@[simp] lemma wall_step_width (w : World) : (w.wall_step).width = w.width := by
  simp only [World.wall_step, Ball.bounce_horizontal, Speed.reverse]
  split_ifs <;> rfl
@[simp] lemma wall_step_height (w : World) : (w.wall_step).height = w.height := by
  simp only [World.wall_step, Ball.bounce_horizontal, Speed.reverse]
  split_ifs <;> rfl
@[simp] lemma wall_step_left_paddle (w : World) : (w.wall_step).left_paddle = w.left_paddle := by
  simp only [World.wall_step, Ball.bounce_horizontal, Speed.reverse]
  split_ifs <;> rfl
@[simp] lemma wall_step_right_paddle (w : World) :
    (w.wall_step).right_paddle = w.right_paddle := by
  simp only [World.wall_step, Ball.bounce_horizontal, Speed.reverse]
  split_ifs <;> rfl
@[simp] lemma wall_step_ball_size (w : World) : (w.wall_step).ball.size = w.ball.size := by
  simp only [World.wall_step, Ball.bounce_horizontal, Speed.reverse]
  split_ifs <;> rfl
@[simp] lemma wall_step_ball_x (w : World) : (w.wall_step).ball.x = w.ball.x := by
  simp only [World.wall_step, Ball.bounce_horizontal, Speed.reverse]
  split_ifs <;> rfl
@[simp] lemma wall_step_ball_hspeed (w : World) :
    (w.wall_step).ball.horizontal_speed = w.ball.horizontal_speed := by
  simp only [World.wall_step, Ball.bounce_horizontal, Speed.reverse]
  split_ifs <;> rfl

lemma wall_step_y_bounds (w : World) (h0 : 0 ≤ w.height - w.ball.size) :
    0 ≤ (w.wall_step).ball.y ∧ (w.wall_step).ball.y ≤ w.height - w.ball.size := by
  simp only [World.wall_step, Ball.bounce_horizontal, Speed.reverse]
  split_ifs <;> (try simp) <;> omega

@[simp] lemma bounce_vertical_x (b : Ball) (hf : ℚ) : (b.bounce_vertical hf).x = b.x := rfl
@[simp] lemma bounce_vertical_y (b : Ball) (hf : ℚ) : (b.bounce_vertical hf).y = b.y := rfl
@[simp] lemma bounce_vertical_size (b : Ball) (hf : ℚ) :
    (b.bounce_vertical hf).size = b.size := rfl

@[simp] lemma paddle_step_width (w : World) : (w.paddle_step).width = w.width := by
  simp only [World.paddle_step]
  split_ifs <;> rfl
@[simp] lemma paddle_step_height (w : World) : (w.paddle_step).height = w.height := by
  simp only [World.paddle_step]
  split_ifs <;> rfl
@[simp] lemma paddle_step_left_paddle (w : World) :
    (w.paddle_step).left_paddle = w.left_paddle := by
  simp only [World.paddle_step]
  split_ifs <;> rfl
@[simp] lemma paddle_step_right_paddle (w : World) :
    (w.paddle_step).right_paddle = w.right_paddle := by
  simp only [World.paddle_step]
  split_ifs <;> rfl
@[simp] lemma paddle_step_ball_size (w : World) : (w.paddle_step).ball.size = w.ball.size := by
  simp only [World.paddle_step]
  split_ifs <;> rfl
@[simp] lemma paddle_step_ball_y (w : World) : (w.paddle_step).ball.y = w.ball.y := by
  simp only [World.paddle_step]
  split_ifs <;> rfl

@[simp] lemma restart_game_width (w : World) (d1 d2 : ℤ) :
    (w.restart_game d1 d2).width = w.width := rfl
@[simp] lemma restart_game_height (w : World) (d1 d2 : ℤ) :
    (w.restart_game d1 d2).height = w.height := rfl

/-- Closed form of `Ball.bounce_vertical`. -/
lemma bounce_vertical_eq (b : Ball) (hf : ℚ) :
    b.bounce_vertical hf =
      { b with
        horizontal_speed :=
          { value := max 0 (min (b.horizontal_speed.value + b.speed_increment) b.max_speed),
            direction := b.horizontal_speed.direction * (-1) },
        vertical_speed :=
          { value := max 0 (min (pytrunc (max ((b.vertical_speed.value : ℚ))
              (|hf| * (b.max_speed : ℚ)))) b.max_speed),
            direction := if 0 < hf then 1 else if hf < 0 then -1
              else b.vertical_speed.direction } } := by
  simp only [Ball.bounce_vertical, Speed.reverse, Speed.set_value]
  by_cases h0 : hf = 0
  · subst h0
    simp
  · rcases lt_or_gt_of_ne h0 with hneg | hpos
    · simp [h0, hneg, asymm hneg]
    · simp [h0, hpos]

/-- Sample paddle for concrete instantiations: the left paddle of the
default world, moved to the very top. -/
def samplePaddle : Paddle := { x := 20, y := 0, height := 100, width := 15, speed := 10 }

/-- Sample ball moving leftward, strictly to the left of `samplePaddle`,
vertically level with it. -/
def sampleBallLeftward : Ball :=
  { x := 0, y := 10, size := 15,
    horizontal_speed := mkSpeed 4 (-1), vertical_speed := mkSpeed 0 1,
    base_speed := 4, max_speed := 12, speed_increment := 1 }

/-- Sample ball with the default world's ball parameters and no vertical
speed. -/
def sampleBall : Ball :=
  { x := 0, y := 0, size := 15,
    horizontal_speed := mkSpeed 4 1, vertical_speed := mkSpeed 0 1,
    base_speed := 4, max_speed := 12, speed_increment := 1 }

/-! ### C3: the collision tests -/

/-- C3, counterexample: `collision_left` holds for `samplePaddle` and
`sampleBallLeftward` although the ball's leading (left) edge, at the
current and at the next-step position alike, lies strictly to the left of
the paddle's x-span `[paddle.x, paddle.x + width]`, so the claimed
"leading edge overlaps the paddle's x-span" characterization is false. -/
theorem collision_left_claim_counterexample :
    collision_left samplePaddle sampleBallLeftward = true ∧
    sampleBallLeftward.x < samplePaddle.x ∧
    sampleBallLeftward.x + sampleBallLeftward.horizontal_speed.velocity < samplePaddle.x := by
  decide

/-- C3 (amended): either collision test holds iff the ball's leading edge,
at the current and the next-step x alike, has not passed beyond the
paddle's far face (left paddle: at most `paddle.x + width`; right paddle:
at least `paddle.x`), and the ball's vertical span `[y, y+size]` overlaps
the paddle's vertical span `[paddle.y, paddle.y+height]`. -/
theorem collision_iff (p : Paddle) (b : Ball) (hs : 0 ≤ b.size) (hh : 0 ≤ p.height) :
    (collision_left p b = true ↔
      (b.x ≤ p.x + p.width ∧ b.x + b.horizontal_speed.velocity ≤ p.x + p.width ∧
        (Set.Icc b.y (b.y + b.size) ∩ Set.Icc p.y (p.y + p.height)).Nonempty)) ∧
    (collision_right p b = true ↔
      (p.x ≤ b.x + b.size ∧ p.x ≤ b.x + b.size + b.horizontal_speed.velocity ∧
        (Set.Icc b.y (b.y + b.size) ∩ Set.Icc p.y (p.y + p.height)).Nonempty)) := by
  rw [Set.Icc_inter_Icc, Set.nonempty_Icc]
  simp only [collision_left, collision_right, decide_eq_true_eq, le_min_iff, max_le_iff]
  constructor <;> constructor <;> intro h <;> [skip; skip; skip; skip] <;> omega

/-- C3 witness: the amended characterization instantiated on the
counterexample pair. -/
theorem collision_iff_witness :
    sampleBallLeftward.x ≤ samplePaddle.x + samplePaddle.width ∧
    sampleBallLeftward.x + sampleBallLeftward.horizontal_speed.velocity ≤
      samplePaddle.x + samplePaddle.width ∧
    (Set.Icc sampleBallLeftward.y (sampleBallLeftward.y + sampleBallLeftward.size) ∩
      Set.Icc samplePaddle.y (samplePaddle.y + samplePaddle.height)).Nonempty :=
  (collision_iff samplePaddle sampleBallLeftward (by decide) (by decide)).1.mp (by decide)

/-! ### C4 and C5: `bounce_vertical` -/

/-- C4, counterexample: at `hit_factor = 3/10` on `sampleBall`
(`max_speed = 12`, prior vertical magnitude 0), the code stores the
truncated magnitude 3, while the claimed formula
`min(max(previous, |hit_factor| * max_speed), max_speed)` gives `18/5`. -/
theorem bounce_vertical_claim_counterexample :
    (sampleBall.bounce_vertical (3/10)).vertical_speed.value = 3 ∧
    min (max ((sampleBall.vertical_speed.value : ℚ))
      (|(3/10 : ℚ)| * (sampleBall.max_speed : ℚ))) (sampleBall.max_speed : ℚ) = 18/5 ∧
    ((3 : ℚ) ≠ 18/5) := by
  have habs : |(3/10 : ℚ)| = 3/10 := by
    rw [abs_of_nonneg]
    norm_num
  have hpy : pytrunc (18/5 : ℚ) = 3 := by
    rw [pytrunc, if_pos (by norm_num)]
    norm_num [Int.floor_eq_iff]
  refine ⟨?_, ?_, by norm_num⟩
  · rw [bounce_vertical_eq]
    have h1 : max (((sampleBall.vertical_speed.value : ℤ) : ℚ))
        (|(3/10 : ℚ)| * ((sampleBall.max_speed : ℤ) : ℚ)) = 18/5 := by
      norm_num [sampleBall, mkSpeed, max_def, habs]
    show max 0 (min (pytrunc (max (((sampleBall.vertical_speed.value : ℤ) : ℚ))
      (|(3/10 : ℚ)| * ((sampleBall.max_speed : ℤ) : ℚ)))) sampleBall.max_speed) = 3
    rw [h1, hpy]
    norm_num [sampleBall]
  · norm_num [sampleBall, mkSpeed, max_def, min_def, habs]

/-- C4 (amended): for a ball whose speed state satisfies the maintained
invariants (magnitudes non-negative, vertical magnitude at most
`max_speed`, positive `max_speed` and `speed_increment`) and any
`hit_factor ∈ [-1, 1]`, `bounce_vertical` reverses the horizontal
direction, sets the horizontal magnitude to
`min(previous + speed_increment, max_speed)`, sets the vertical magnitude
to `min(trunc(max(previous_vertical, |hit_factor| * max_speed)), max_speed)`
(the Python `int(...)` truncation), which never decreases it, and sets the
vertical direction to `+1` if `hit_factor > 0`, `-1` if `hit_factor < 0`,
leaving the whole vertical speed unchanged when `hit_factor = 0`. -/
theorem bounce_vertical_spec (b : Ball) (hf : ℚ)
    (hrange : -1 ≤ hf ∧ hf ≤ 1)
    (hv0 : 0 ≤ b.vertical_speed.value) (hvmax : b.vertical_speed.value ≤ b.max_speed)
    (hh0 : 0 ≤ b.horizontal_speed.value) (hmax : 0 < b.max_speed)
    (hinc : 0 < b.speed_increment) :
    (b.bounce_vertical hf).horizontal_speed.direction = -b.horizontal_speed.direction ∧
    (b.bounce_vertical hf).horizontal_speed.value =
      min (b.horizontal_speed.value + b.speed_increment) b.max_speed ∧
    (b.bounce_vertical hf).vertical_speed.value =
      min (pytrunc (max ((b.vertical_speed.value : ℚ)) (|hf| * (b.max_speed : ℚ))))
        b.max_speed ∧
    b.vertical_speed.value ≤ (b.bounce_vertical hf).vertical_speed.value ∧
    (0 < hf → (b.bounce_vertical hf).vertical_speed.direction = 1) ∧
    (hf < 0 → (b.bounce_vertical hf).vertical_speed.direction = -1) ∧
    (hf = 0 → (b.bounce_vertical hf).vertical_speed = b.vertical_speed) := by
  simp only [bounce_vertical_eq]
  have hdq : (0:ℚ) ≤ |hf| * (b.max_speed : ℚ) :=
    mul_nonneg (abs_nonneg hf) (by exact_mod_cast hmax.le)
  have hmq : (0:ℚ) ≤ max ((b.vertical_speed.value : ℚ)) (|hf| * (b.max_speed : ℚ)) :=
    le_max_of_le_right hdq
  have htr : 0 ≤ pytrunc (max ((b.vertical_speed.value : ℚ)) (|hf| * (b.max_speed : ℚ))) :=
    pytrunc_nonneg hmq
  have hvle : b.vertical_speed.value ≤
      pytrunc (max ((b.vertical_speed.value : ℚ)) (|hf| * (b.max_speed : ℚ))) :=
    le_pytrunc_of_le hmq (le_max_left _ _)
  refine ⟨by omega, by omega, by omega, by omega, ?_, ?_, ?_⟩
  · intro h
    rw [if_pos h]
  · intro h
    rw [if_neg (lt_asymm h), if_pos h]
  · intro h
    subst h
    have h1 : max ((b.vertical_speed.value : ℚ)) (|(0:ℚ)| * (b.max_speed : ℚ)) =
        ((b.vertical_speed.value : ℚ)) := by
      rw [abs_zero, zero_mul]
      exact max_eq_left (by exact_mod_cast hv0)
    rw [h1, pytrunc_intCast, min_eq_left hvmax, max_eq_right hv0]
    norm_num

/-- C4 witness: the amended statement instantiated at `sampleBall` with
`hit_factor = 1/2`. -/
theorem bounce_vertical_spec_witness :
    (sampleBall.bounce_vertical (1/2)).vertical_speed.value =
      min (pytrunc (max ((sampleBall.vertical_speed.value : ℚ))
        (|(1/2 : ℚ)| * (sampleBall.max_speed : ℚ)))) sampleBall.max_speed :=
  (bounce_vertical_spec sampleBall (1/2) ⟨by norm_num, by norm_num⟩ (by decide) (by decide)
    (by decide) (by decide) (by decide)).2.2.1

/-- C5: for every ball whose `max_speed` is 12, `bounce_vertical 1.0`
leaves the vertical magnitude exactly 12 with direction `+1`, whatever the
vertical speed was before. -/
theorem bounce_vertical_full_hit (b : Ball) (hmax : b.max_speed = 12) :
    (b.bounce_vertical 1).vertical_speed.value = 12 ∧
    (b.bounce_vertical 1).vertical_speed.direction = 1 := by
  simp only [bounce_vertical_eq, hmax]
  refine ⟨?_, by norm_num⟩
  have h1 : |(1:ℚ)| * ((12:ℤ) : ℚ) = (((12:ℤ) : ℚ)) := by norm_num
  rw [h1, ← Int.cast_max, pytrunc_intCast]
  omega

/-- C5 witness: the statement instantiated at `sampleBall`. -/
theorem bounce_vertical_full_hit_witness :
    (sampleBall.bounce_vertical 1).vertical_speed.value = 12 ∧
    (sampleBall.bounce_vertical 1).vertical_speed.direction = 1 :=
  bounce_vertical_full_hit sampleBall (by decide)

/-! ### C7: `get_hit_factor` -/

/-- C7: for every paddle with (contractually) positive height,
`get_hit_factor` is monotone non-decreasing in the ball-center argument,
always lands in `[-1, 1]`, returns exactly 0 at the paddle's vertical
center, and is the clamp of `((ball_center_y - paddle.y) / height) * 2 - 1`. -/
theorem get_hit_factor_spec (p : Paddle) (hp : 0 < p.height) :
    (∀ y1 y2 : ℤ, y1 ≤ y2 → p.get_hit_factor y1 ≤ p.get_hit_factor y2) ∧
    (∀ y : ℤ, -1 ≤ p.get_hit_factor y ∧ p.get_hit_factor y ≤ 1) ∧
    (∀ y : ℤ, 2 * y = 2 * p.y + p.height → p.get_hit_factor y = 0) ∧
    (∀ y : ℤ, p.get_hit_factor y =
      max (-1 : ℚ) (min 1 (((y : ℚ) - (p.y : ℚ)) / (p.height : ℚ) * 2 - 1))) := by
  have hpq : (0:ℚ) < (p.height : ℚ) := by exact_mod_cast hp
  refine ⟨?_, ?_, ?_, fun y => rfl⟩
  · intro y1 y2 h
    unfold Paddle.get_hit_factor
    have h1 : ((y1:ℚ) - p.y) / p.height ≤ ((y2:ℚ) - p.y) / p.height := by
      have hc : (0:ℚ) ≤ (p.height:ℚ)⁻¹ := inv_nonneg.mpr hpq.le
      have hy : (y1:ℚ) - p.y ≤ (y2:ℚ) - p.y := by
        have h2 : (y1:ℚ) ≤ (y2:ℚ) := by exact_mod_cast h
        linarith
      calc ((y1:ℚ) - p.y) / p.height
          = ((y1:ℚ) - p.y) * (p.height:ℚ)⁻¹ := div_eq_mul_inv _ _
        _ ≤ ((y2:ℚ) - p.y) * (p.height:ℚ)⁻¹ := mul_le_mul_of_nonneg_right hy hc
        _ = ((y2:ℚ) - p.y) / p.height := (div_eq_mul_inv _ _).symm
    exact max_le_max le_rfl (min_le_min le_rfl (by linarith))
  · intro y
    exact ⟨le_max_left _ _, max_le (by norm_num) (min_le_left _ _)⟩
  · intro y h
    unfold Paddle.get_hit_factor
    have hy : (y:ℚ) - (p.y:ℚ) = (p.height : ℚ) / 2 := by
      have h2 : ((2 * y : ℤ) : ℚ) = ((2 * p.y + p.height : ℤ) : ℚ) := by exact_mod_cast h
      push_cast at h2
      linarith
    have hz : ((y:ℚ) - (p.y:ℚ)) / (p.height : ℚ) * 2 - 1 = 0 := by
      rw [hy]
      field_simp
      ring
    rw [hz]
    norm_num

/-- C7 witness: the dead-center value on `samplePaddle` (center 50). -/
theorem get_hit_factor_spec_witness : samplePaddle.get_hit_factor 50 = 0 :=
  (get_hit_factor_spec samplePaddle (by decide)).2.2.1 50 (by decide)

/-! ### C6: the wall bounce -/

/-- Sample world whose ball is near the top wall and moving up: the next
advance puts it at `y = -3`. -/
def sampleWorldNearTop : World :=
  { width := 800, height := 600,
    left_paddle := { x := 20, y := 250, height := 100, width := 15, speed := 10 },
    right_paddle := { x := 765, y := 250, height := 100, width := 15, speed := 10 },
    ball := { x := 400, y := 2, size := 15,
              horizontal_speed := mkSpeed 0 1, vertical_speed := mkSpeed 5 (-1),
              base_speed := 4, max_speed := 12, speed_increment := 1 } }

/-- C6: in any tick in which, after the position advance, `ball.y ≤ 0` or
`ball.y ≥ height - size`, the wall step reverses the vertical direction
(`bounce_horizontal`), keeps the vertical magnitude and the whole
horizontal speed unchanged, and clamps `ball.y` into
`[0, height - size]`, snapping to the boundary that was crossed. -/
theorem wall_bounce_spec (w : World)
    (hsz : 0 ≤ w.height - w.ball.size)
    (htrig : (w.ball_advance).ball.y ≤ 0 ∨
      w.height - w.ball.size ≤ (w.ball_advance).ball.y) :
    ((w.ball_advance).wall_step).ball.vertical_speed.direction =
      -(w.ball_advance).ball.vertical_speed.direction ∧
    ((w.ball_advance).wall_step).ball.vertical_speed.value =
      (w.ball_advance).ball.vertical_speed.value ∧
    ((w.ball_advance).wall_step).ball.horizontal_speed =
      (w.ball_advance).ball.horizontal_speed ∧
    ((w.ball_advance).wall_step).ball.y =
      max 0 (min (w.height - w.ball.size) ((w.ball_advance).ball.y)) ∧
    0 ≤ ((w.ball_advance).wall_step).ball.y ∧
    ((w.ball_advance).wall_step).ball.y ≤ w.height - w.ball.size ∧
    ((w.ball_advance).ball.y < 0 → ((w.ball_advance).wall_step).ball.y = 0) ∧
    (w.height - w.ball.size < (w.ball_advance).ball.y →
      ((w.ball_advance).wall_step).ball.y = w.height - w.ball.size) ∧
    ((w.ball_advance).wall_step).ball.x = (w.ball_advance).ball.x := by
  simp only [World.wall_step, Ball.bounce_horizontal, Speed.reverse,
    ball_advance_ball_y, ball_advance_ball_size, ball_advance_height,
    ball_advance_ball_hspeed, ball_advance_ball_vspeed, ball_advance_ball_x] at htrig ⊢
  rw [if_pos htrig]
  split_ifs <;> (try simp) <;> omega

/-- C6 witness: `sampleWorldNearTop` after one advance sits at `y = -3`;
the wall step flips the vertical direction and snaps `y` to 0. -/
theorem wall_bounce_spec_witness :
    ((sampleWorldNearTop.ball_advance).wall_step).ball.vertical_speed.direction =
      -(sampleWorldNearTop.ball_advance).ball.vertical_speed.direction ∧
    ((sampleWorldNearTop.ball_advance).wall_step).ball.vertical_speed.value =
      (sampleWorldNearTop.ball_advance).ball.vertical_speed.value ∧
    ((sampleWorldNearTop.ball_advance).wall_step).ball.horizontal_speed =
      (sampleWorldNearTop.ball_advance).ball.horizontal_speed ∧
    ((sampleWorldNearTop.ball_advance).wall_step).ball.y =
      max 0 (min (sampleWorldNearTop.height - sampleWorldNearTop.ball.size)
        ((sampleWorldNearTop.ball_advance).ball.y)) ∧
    0 ≤ ((sampleWorldNearTop.ball_advance).wall_step).ball.y ∧
    ((sampleWorldNearTop.ball_advance).wall_step).ball.y ≤
      sampleWorldNearTop.height - sampleWorldNearTop.ball.size ∧
    ((sampleWorldNearTop.ball_advance).ball.y < 0 →
      ((sampleWorldNearTop.ball_advance).wall_step).ball.y = 0) ∧
    (sampleWorldNearTop.height - sampleWorldNearTop.ball.size <
        (sampleWorldNearTop.ball_advance).ball.y →
      ((sampleWorldNearTop.ball_advance).wall_step).ball.y =
        sampleWorldNearTop.height - sampleWorldNearTop.ball.size) ∧
    ((sampleWorldNearTop.ball_advance).wall_step).ball.x =
      (sampleWorldNearTop.ball_advance).ball.x :=
  wall_bounce_spec sampleWorldNearTop (by decide) (Or.inl (by decide))

/-! ### C2: the scoring step -/

/-- C2: for every world with (contractually) positive width, a tick
returns 2 and restarts exactly when the mid-tick ball has `x < 0`, returns
1 and restarts exactly when it has `x > width`, and otherwise returns 0
leaving the mid-tick state untouched; the outcome is always 0, 1 or 2. -/
theorem update_world_scoring (w : World) (h_dir v_dir : ℤ) (hw : 0 < w.width) :
    ((w.update_world h_dir v_dir).1 = 2 ↔ (w.mid_tick).ball.x < 0) ∧
    ((w.update_world h_dir v_dir).1 = 1 ↔ w.width < (w.mid_tick).ball.x) ∧
    ((w.update_world h_dir v_dir).1 = 0 ↔
      (0 ≤ (w.mid_tick).ball.x ∧ (w.mid_tick).ball.x ≤ w.width)) ∧
    (((w.update_world h_dir v_dir).1 = 2 ∨ (w.update_world h_dir v_dir).1 = 1) →
      (w.update_world h_dir v_dir).2 = (w.mid_tick).restart_game h_dir v_dir) ∧
    ((w.update_world h_dir v_dir).1 = 0 → (w.update_world h_dir v_dir).2 = w.mid_tick) ∧
    ((w.update_world h_dir v_dir).1 = 0 ∨ (w.update_world h_dir v_dir).1 = 1 ∨
      (w.update_world h_dir v_dir).1 = 2) := by
  have hmw : (w.mid_tick).width = w.width := by simp [World.mid_tick]
  unfold World.update_world World.score_step
  split_ifs with hx1 hx2 <;> (try simp) <;> omega

/-- C2 witness: the default world's first tick does not score. -/
theorem update_world_scoring_witness :
    ((mkWorld 800 600 1 1).update_world 1 1).1 = 0 :=
  (update_world_scoring (mkWorld 800 600 1 1) 1 1 (by decide)).2.2.1.mpr (by decide)

/-! ### C8: sequences of Speed operations -/

/-- A queued `Speed` mutation, one constructor per public mutator. -/
inductive SpeedOp where
  | reverse : SpeedOp
  | increase (amount : ℤ) : SpeedOp
  | decrease (amount : ℤ) : SpeedOp
  | set_value (v : ℤ) : SpeedOp
  deriving Repr, DecidableEq

/-- Interpret one queued operation on a `Speed`. -/
def Speed.apply_op (s : Speed) : SpeedOp → Speed
  | SpeedOp.reverse => s.reverse
  | SpeedOp.increase a => s.increase a
  | SpeedOp.decrease a => s.decrease a
  | SpeedOp.set_value v => s.set_value v

/-- Run a list of queued operations, left to right. -/
def Speed.run_ops (s : Speed) (ops : List SpeedOp) : Speed :=
  ops.foldl Speed.apply_op s

/-- The operation is not an `increase` with a negative amount. -/
def SpeedOp.nonneg_increase : SpeedOp → Prop
  | SpeedOp.increase a => 0 ≤ a
  | _ => True

/-- C8, counterexample: `increase` adds unconditionally, so a negative
amount drives the magnitude below zero: `Speed(3, 1).increase(-5)` leaves
magnitude `-2`. -/
theorem speed_negative_increase_counterexample :
    ((mkSpeed 3 1).run_ops [SpeedOp.increase (-5)]).value = -2 ∧
    ¬(0 ≤ ((mkSpeed 3 1).run_ops [SpeedOp.increase (-5)]).value) := by
  constructor <;> decide

lemma apply_op_inv {s : Speed} (op : SpeedOp) (h1 : 0 ≤ s.value)
    (h2 : s.direction = 1 ∨ s.direction = -1) (h3 : op.nonneg_increase) :
    0 ≤ (s.apply_op op).value ∧
    ((s.apply_op op).direction = 1 ∨ (s.apply_op op).direction = -1) := by
  cases op with
  | reverse =>
    refine ⟨h1, ?_⟩
    rcases h2 with h | h <;> simp [Speed.apply_op, Speed.reverse, h]
  | increase a =>
    simp only [SpeedOp.nonneg_increase] at h3
    simp only [Speed.apply_op, Speed.increase]
    exact ⟨by omega, h2⟩
  | decrease a =>
    simp only [Speed.apply_op, Speed.decrease]
    exact ⟨le_max_left _ _, h2⟩
  | set_value v =>
    simp only [Speed.apply_op, Speed.set_value]
    exact ⟨le_max_left _ _, h2⟩

lemma run_ops_inv (ops : List SpeedOp) :
    ∀ s : Speed, 0 ≤ s.value → (s.direction = 1 ∨ s.direction = -1) →
      (∀ op ∈ ops, op.nonneg_increase) →
      0 ≤ (s.run_ops ops).value ∧
      ((s.run_ops ops).direction = 1 ∨ (s.run_ops ops).direction = -1) := by
  induction ops with
  | nil => intro s h1 h2 _; exact ⟨h1, h2⟩
  | cons op rest ih =>
    intro s h1 h2 hops
    have hstep := apply_op_inv op h1 h2 (hops op (by simp))
    exact ih (s.apply_op op) hstep.1 hstep.2 (fun o ho => hops o (by simp [ho]))

/-- C8 (amended): for a `Speed` constructed with non-negative magnitude,
after any sequence of `reverse`, `increase`, `decrease`, `set_value` in
which every `increase` amount is non-negative (`decrease` and `set_value`
arguments stay unrestricted), the magnitude is still ≥ 0 and the
direction is exactly `1` or `-1`; the constructor maps any non-positive
direction to `-1`.  (As stated the claim fails: `increase` with a negative
amount can make the magnitude negative.) -/
theorem speed_ops_invariant (v d : ℤ) (hv : 0 ≤ v) (ops : List SpeedOp)
    (hops : ∀ op ∈ ops, op.nonneg_increase) :
    0 ≤ ((mkSpeed v d).run_ops ops).value ∧
    (((mkSpeed v d).run_ops ops).direction = 1 ∨
      ((mkSpeed v d).run_ops ops).direction = -1) ∧
    (d ≤ 0 → (mkSpeed v d).direction = -1) := by
  have hd : (mkSpeed v d).direction = 1 ∨ (mkSpeed v d).direction = -1 := by
    simp only [mkSpeed]
    split_ifs <;> simp
  have h := run_ops_inv ops (mkSpeed v d) hv hd hops
  refine ⟨h.1, h.2, fun hle => ?_⟩
  simp only [mkSpeed]
  rw [if_neg (by omega)]

/-- C8 witness: the amended invariant on `Speed(3, 1)` after a reverse and
an over-large decrease. -/
theorem speed_ops_invariant_witness :
    0 ≤ ((mkSpeed 3 1).run_ops [SpeedOp.reverse, SpeedOp.decrease 5]).value ∧
    (((mkSpeed 3 1).run_ops [SpeedOp.reverse, SpeedOp.decrease 5]).direction = 1 ∨
      ((mkSpeed 3 1).run_ops [SpeedOp.reverse, SpeedOp.decrease 5]).direction = -1) ∧
    ((1:ℤ) ≤ 0 → (mkSpeed 3 1).direction = -1) :=
  speed_ops_invariant 3 1 (by norm_num) _ (by intro op hop; fin_cases hop <;> trivial)

/-! ### C9: `restart_game` -/

/-- C9: `restart_game` recenters both paddles to `(height - paddle_height) / 2`
(250 in the default world) keeping their x, and a second consecutive call
gives the same paddle positions; the ball is recentered with horizontal
magnitude `base_speed` and vertical magnitude 0, whatever the fresh random
directions are. -/
theorem restart_game_spec (w : World) (d1 d2 d3 d4 : ℤ) :
    ((w.restart_game d1 d2).restart_game d3 d4).left_paddle.y =
      (w.restart_game d1 d2).left_paddle.y ∧
    ((w.restart_game d1 d2).restart_game d3 d4).right_paddle.y =
      (w.restart_game d1 d2).right_paddle.y ∧
    (w.restart_game d1 d2).left_paddle.y = (w.height - w.left_paddle.height) / 2 ∧
    (w.restart_game d1 d2).right_paddle.y = (w.height - w.right_paddle.height) / 2 ∧
    (w.restart_game d1 d2).left_paddle.x = w.left_paddle.x ∧
    (w.restart_game d1 d2).right_paddle.x = w.right_paddle.x ∧
    (w.restart_game d1 d2).ball.x = w.width / 2 ∧
    (w.restart_game d1 d2).ball.y = w.height / 2 ∧
    (w.restart_game d1 d2).ball.horizontal_speed.value = w.ball.base_speed ∧
    (w.restart_game d1 d2).ball.vertical_speed.value = 0 ∧
    ((mkWorld 800 600 d1 d2).restart_game d3 d4).left_paddle.y = 250 ∧
    ((mkWorld 800 600 d1 d2).restart_game d3 d4).right_paddle.y = 250 :=
  ⟨rfl, rfl, rfl, rfl, rfl, rfl, rfl, rfl, rfl, rfl, rfl, rfl⟩

/-! ### C10: determinism of a tick -/

/-- C10: the outcome of a tick does not depend on the random draws, and a
tick with outcome 0 is fully deterministic: randomness enters only through
the restart performed on a scoring tick. -/
theorem update_world_deterministic (w : World) (d1 d2 d3 d4 : ℤ) :
    (w.update_world d1 d2).1 = (w.update_world d3 d4).1 ∧
    ((w.update_world d1 d2).1 = 0 →
      (w.update_world d1 d2).2 = (w.update_world d3 d4).2) := by
  unfold World.update_world World.score_step
  split_ifs <;> norm_num

/-- C10 witness: on the default world's non-scoring first tick the two
result states coincide for different random draws. -/
theorem update_world_deterministic_witness :
    ((mkWorld 800 600 1 1).update_world 1 1).2 =
      ((mkWorld 800 600 1 1).update_world (-1) (-1)).2 :=
  (update_world_deterministic (mkWorld 800 600 1 1) 1 1 (-1) (-1)).2 (by decide)

/-! ### C1: the World invariants on reachable states -/

/-- Structural dimension facts that every reachable world keeps: the
positivity contracts of the constructors (`PositiveInt` fields) plus
"paddles and ball fit vertically into the arena". -/
def WorldDims (w : World) : Prop :=
  0 < w.width ∧ 0 < w.height ∧
  0 < w.left_paddle.speed ∧ 0 < w.left_paddle.height ∧ w.left_paddle.height ≤ w.height ∧
  0 < w.right_paddle.speed ∧ 0 < w.right_paddle.height ∧ w.right_paddle.height ≤ w.height ∧
  0 < w.ball.size ∧ w.ball.size ≤ w.height

/-- The icontract `@invariant` conditions on `World`: both paddles within
the vertical bounds, ball within `[0, width] × [0, height]`. -/
def WorldInv (w : World) : Prop :=
  0 ≤ w.left_paddle.y ∧ w.left_paddle.y ≤ w.height - w.left_paddle.height ∧
  0 ≤ w.right_paddle.y ∧ w.right_paddle.y ≤ w.height - w.right_paddle.height ∧
  0 ≤ w.ball.x ∧ w.ball.x ≤ w.width ∧
  0 ≤ w.ball.y ∧ w.ball.y ≤ w.height

lemma dims_mkWorld (d1 d2 : ℤ) : WorldDims (mkWorld 800 600 d1 d2) := by
  norm_num [WorldDims, mkWorld, mkBall]

lemma inv_mkWorld (d1 d2 : ℤ) : WorldInv (mkWorld 800 600 d1 d2) := by
  norm_num [WorldInv, mkWorld, mkBall]

lemma dims_mid_tick (w : World) (hd : WorldDims w) : WorldDims w.mid_tick := by
  unfold WorldDims at hd ⊢
  simp only [World.mid_tick, paddle_step_width, paddle_step_height, paddle_step_left_paddle,
    paddle_step_right_paddle, paddle_step_ball_size, wall_step_width, wall_step_height,
    wall_step_left_paddle, wall_step_right_paddle, wall_step_ball_size, ball_advance_width,
    ball_advance_height, ball_advance_left_paddle, ball_advance_right_paddle,
    ball_advance_ball_size]
  exact hd

lemma inv_restart_game (w : World) (d1 d2 : ℤ) (hd : WorldDims w) :
    WorldInv (w.restart_game d1 d2) := by
  obtain ⟨hw, hh, hls, hlph, hlh, hrs, hrph, hrh, hbs, hbsh⟩ := hd
  unfold WorldInv World.restart_game World.reset_ball Ball.reset
  dsimp only
  omega

lemma inv_move_left_up (w : World) (hd : WorldDims w) (hi : WorldInv w) :
    WorldInv w.move_left_paddle_up := by
  obtain ⟨hw, hh, hls, hlph, hlh, hrs, hrph, hrh, hbs, hbsh⟩ := hd
  obtain ⟨h1, h2, h3, h4, h5, h6, h7, h8⟩ := hi
  unfold WorldInv World.move_left_paddle_up Paddle.move_up
  dsimp only
  omega

lemma inv_move_left_down (w : World) (hd : WorldDims w) (hi : WorldInv w) :
    WorldInv w.move_left_paddle_down := by
  obtain ⟨hw, hh, hls, hlph, hlh, hrs, hrph, hrh, hbs, hbsh⟩ := hd
  obtain ⟨h1, h2, h3, h4, h5, h6, h7, h8⟩ := hi
  unfold WorldInv World.move_left_paddle_down Paddle.move_down
  dsimp only
  omega

lemma inv_move_right_up (w : World) (hd : WorldDims w) (hi : WorldInv w) :
    WorldInv w.move_right_paddle_up := by
  obtain ⟨hw, hh, hls, hlph, hlh, hrs, hrph, hrh, hbs, hbsh⟩ := hd
  obtain ⟨h1, h2, h3, h4, h5, h6, h7, h8⟩ := hi
  unfold WorldInv World.move_right_paddle_up Paddle.move_up
  dsimp only
  omega

lemma inv_move_right_down (w : World) (hd : WorldDims w) (hi : WorldInv w) :
    WorldInv w.move_right_paddle_down := by
  obtain ⟨hw, hh, hls, hlph, hlh, hrs, hrph, hrh, hbs, hbsh⟩ := hd
  obtain ⟨h1, h2, h3, h4, h5, h6, h7, h8⟩ := hi
  unfold WorldInv World.move_right_paddle_down Paddle.move_down
  dsimp only
  omega

lemma dims_update_world (w : World) (d1 d2 : ℤ) (hd : WorldDims w) :
    WorldDims (w.update_world d1 d2).2 := by
  have hm := dims_mid_tick w hd
  unfold World.update_world World.score_step
  split_ifs <;> exact hm

lemma inv_update_world (w : World) (d1 d2 : ℤ) (hd : WorldDims w) (hi : WorldInv w) :
    WorldInv (w.update_world d1 d2).2 := by
  have hm := dims_mid_tick w hd
  obtain ⟨hw, hh, hls, hlph, hlh, hrs, hrph, hrh, hbs, hbsh⟩ := hd
  obtain ⟨h1, h2, h3, h4, h5, h6, h7, h8⟩ := hi
  have hyb := wall_step_y_bounds (w.ball_advance)
    (by simp only [ball_advance_height, ball_advance_ball_size]; omega)
  simp only [ball_advance_height, ball_advance_ball_size] at hyb
  unfold World.update_world World.score_step
  split_ifs with hx1 hx2
  · exact inv_restart_game _ d1 d2 hm
  · exact inv_restart_game _ d1 d2 hm
  · unfold WorldInv
    simp only [World.mid_tick, paddle_step_left_paddle, paddle_step_right_paddle,
      paddle_step_width, paddle_step_height, paddle_step_ball_y, wall_step_left_paddle,
      wall_step_right_paddle, wall_step_width, wall_step_height, ball_advance_left_paddle,
      ball_advance_right_paddle, ball_advance_width, ball_advance_height] at hx1 hx2 ⊢
    omega

lemma reachable_dims_inv (w : World) (h : Reachable w) : WorldDims w ∧ WorldInv w := by
  induction h with
  | init d1 d2 => exact ⟨dims_mkWorld d1 d2, inv_mkWorld d1 d2⟩
  | update v d1 d2 _ ih =>
      exact ⟨dims_update_world v d1 d2 ih.1, inv_update_world v d1 d2 ih.1 ih.2⟩
  | lup v _ ih => exact ⟨ih.1, inv_move_left_up v ih.1 ih.2⟩
  | ldown v _ ih => exact ⟨ih.1, inv_move_left_down v ih.1 ih.2⟩
  | rup v _ ih => exact ⟨ih.1, inv_move_right_up v ih.1 ih.2⟩
  | rdown v _ ih => exact ⟨ih.1, inv_move_right_down v ih.1 ih.2⟩
  | restart v d1 d2 _ ih => exact ⟨ih.1, inv_restart_game v d1 d2 ih.1⟩

/-- C1: after every operation sequence from default construction — ticks,
paddle moves and restarts, with arbitrary random draws — both paddles lie
in `[0, height - paddle_height]`, the ball's x in `[0, width]` and the
ball's y in `[0, height]`. -/
theorem reachable_world_invariant (w : World) (h : Reachable w) :
    0 ≤ w.left_paddle.y ∧ w.left_paddle.y ≤ w.height - w.left_paddle.height ∧
    0 ≤ w.right_paddle.y ∧ w.right_paddle.y ≤ w.height - w.right_paddle.height ∧
    0 ≤ w.ball.x ∧ w.ball.x ≤ w.width ∧
    0 ≤ w.ball.y ∧ w.ball.y ≤ w.height :=
  (reachable_dims_inv w h).2

/-- C1 witness: the invariant on the freshly constructed default world. -/
theorem reachable_world_invariant_witness :
    0 ≤ (mkWorld 800 600 1 1).left_paddle.y ∧
    (mkWorld 800 600 1 1).left_paddle.y ≤
      (mkWorld 800 600 1 1).height - (mkWorld 800 600 1 1).left_paddle.height ∧
    0 ≤ (mkWorld 800 600 1 1).right_paddle.y ∧
    (mkWorld 800 600 1 1).right_paddle.y ≤
      (mkWorld 800 600 1 1).height - (mkWorld 800 600 1 1).right_paddle.height ∧
    0 ≤ (mkWorld 800 600 1 1).ball.x ∧
    (mkWorld 800 600 1 1).ball.x ≤ (mkWorld 800 600 1 1).width ∧
    0 ≤ (mkWorld 800 600 1 1).ball.y ∧
    (mkWorld 800 600 1 1).ball.y ≤ (mkWorld 800 600 1 1).height :=
  reachable_world_invariant (mkWorld 800 600 1 1) (Reachable.init 1 1)

end Pong
